import Mathlib

/-!
# Verification of the `replay-web` browser platform adapter

Shallow embedding of `src/packages/replay-web/src/index.ts` (the browser
platform adapter of the Replay game engine): the frame clock with page
visibility compensation (`newWebFrame` / `handlePageVisible`), the adaptive
resolution step-down loop inside `updateDeviceSize`, the `mutResolution`
controller, the pointer-up dispatch, the listener registration/cleanup
bookkeeping, and the capability checks at startup.

Times and coordinates are JS numbers; they are modelled as rationals (`ℚ`),
which is exact for every concrete value appearing in the theorems below.
-/

namespace ReplayWeb

/-! ## Frame clock (`index.ts` lines 168–232, 602–636)

Mutable variables of `renderCanvas` relevant to the clock:
`isPageVisible`, `lastTimeValue`, `needsToUpdateNotVisibleTime`,
`lastPageNotVisibleTime`, `totalPageNotVisibleTime` (lines 171–175),
`initTime` (line 602) and `isCleanedUp` (line 558). -/

structure ClockState where
  isPageVisible : Bool
  lastTimeValue : ℚ
  needsToUpdateNotVisibleTime : Bool
  lastPageNotVisibleTime : ℚ
  totalPageNotVisibleTime : ℚ
  initTime : Option ℚ
  isCleanedUp : Bool
  deriving Repr, DecidableEq

/-- Initial values of the clock variables (lines 171–175, 558, 602). -/
def initClockState : ClockState :=
  { isPageVisible := true
    lastTimeValue := 0
    needsToUpdateNotVisibleTime := false
    lastPageNotVisibleTime := 0
    totalPageNotVisibleTime := 0
    initTime := none
    isCleanedUp := false }

/-- The literal `1 / 60` subtracted from the first timestamp (line 615). -/
def frameInterval : ℚ := 1 / 60

/-- `handlePageVisible` (lines 186–206).  `hidden` is the value of
`document.hidden` at the time the `visibilitychange` event fires.  The
audio-context suspend/resume side effects are external collaborators and are
not part of the clock state. -/
def handlePageVisible (hidden : Bool) (s : ClockState) : ClockState :=
  let s1 := if hidden && s.isPageVisible then
      { s with lastPageNotVisibleTime := s.lastTimeValue } else s
  let s2 := if !hidden && !s1.isPageVisible then
      { s1 with needsToUpdateNotVisibleTime := true } else s1
  { s2 with isPageVisible := !hidden }

/-- `newWebFrame` (lines 609–633).  Returns the successor state together with
`some e` when `runNextFrame e` is invoked for this animation frame, and
`none` when the frame passes no elapsed time to the engine. -/
def newWebFrame (time : ℚ) (s : ClockState) : ClockState × Option ℚ :=
  if s.isCleanedUp then (s, none) else
  let s := match s.initTime with
    | none => { s with initTime := some (time - frameInterval) }
    | some _ => s
  -- Wait until visible before running to avoid bad timestamps
  if !s.isPageVisible then (s, none) else
  let s := if s.needsToUpdateNotVisibleTime then
      { s with needsToUpdateNotVisibleTime := false
               totalPageNotVisibleTime :=
                 s.totalPageNotVisibleTime + (time - s.lastPageNotVisibleTime) }
    else s
  let s := { s with lastTimeValue := time }
  (s, some (time - s.initTime.getD 0 - s.totalPageNotVisibleTime))

/-- Events observed by the clock: an animation-frame callback carrying the
raw timestamp, or a `visibilitychange` event carrying `document.hidden`. -/
inductive ClockEvent where
  | frame (time : ℚ)
  | visibility (hidden : Bool)
  deriving Repr, DecidableEq

/-- Run the clock over a sequence of events, collecting the elapsed-time
values passed to `runNextFrame` in order. -/
def runClock : ClockState → List ClockEvent → ClockState × List ℚ
  | s, [] => (s, [])
  | s, ClockEvent.frame t :: es =>
      let p := newWebFrame t s
      let q := runClock p.1 es
      (q.1, p.2.toList ++ q.2)
  | s, ClockEvent.visibility hidden :: es =>
      runClock (handlePageVisible hidden s) es

/-- The raw timestamps of the frame events of a trace, in order. -/
def frameTimes (es : List ClockEvent) : List ℚ :=
  es.filterMap fun e => match e with
    | ClockEvent.frame t => some t
    | ClockEvent.visibility _ => none

/-- The elapsed value that a visible frame arriving exactly at
`s.lastTimeValue` would report: `lastTimeValue - initTime - totalPageNotVisibleTime`. -/
def outVal (s : ClockState) : ℚ :=
  s.lastTimeValue - s.initTime.getD 0 - s.totalPageNotVisibleTime

/-- Prepend the last already-emitted elapsed value (if any) to a list. -/
def withLast : Option ℚ → List ℚ → List ℚ
  | none, l => l
  | some v, l => v :: l

/-- The scenario trace of the spec: frames while visible at raw times 0, 500
and 1000 ms, page hidden from 1000 ms (with an animation frame at 3000 ms
while hidden), visible again at 5000 ms, next frame at raw time 5016 ms. -/
def gapTrace : List ClockEvent :=
  [ClockEvent.frame 0, ClockEvent.frame 500, ClockEvent.frame 1000,
   ClockEvent.visibility true, ClockEvent.frame 3000,
   ClockEvent.visibility false, ClockEvent.frame 5016]

/-- Invariant tying `lastPageNotVisibleTime` to `lastTimeValue` whenever the
page is hidden or a visibility gap is pending. -/
def ClockInv (s : ClockState) : Prop :=
  s.isPageVisible = false ∨ s.needsToUpdateNotVisibleTime = true →
    s.lastPageNotVisibleTime = s.lastTimeValue

/-! ## Adaptive resolution (`index.ts` lines 229–286, 505–517, 532–539) -/

/-- The inputs of the canvas-buffer-size computation in `updateDeviceSize`
(lines 255–275): the CSS device size and full logical size of the current
`mutDevice.size`, `window.devicePixelRatio`, the `imageResolution` option and
the `maxPixels` option (`none` when not supplied). -/
structure Geom where
  deviceWidth : ℚ
  deviceHeight : ℚ
  fullWidth : ℚ
  fullHeight : ℚ
  devicePixelRatio : ℚ
  imageResolution : ℚ
  maxPixels : Option ℚ
  deriving Repr, DecidableEq

/-- JavaScript `Math.round`: round half towards positive infinity. -/
def jsRound (x : ℚ) : ℤ := ⌊x + 1/2⌋

/-- `canvasWidth` and `canvasHeight` (lines 257–274) as a function of the
resolution multiplier. -/
def canvasDims (g : Geom) (resolution : ℚ) : ℤ × ℤ :=
  let canvasWidthDevice := g.deviceWidth * g.devicePixelRatio * resolution
  let canvasWidthGame := g.fullWidth * g.imageResolution
  if canvasWidthGame < canvasWidthDevice then
    -- Game is limited by image resolution
    (jsRound canvasWidthGame, jsRound (g.fullHeight * g.imageResolution))
  else
    -- Game is limited by device size
    (jsRound canvasWidthDevice,
     jsRound (g.deviceHeight * g.devicePixelRatio * resolution))

/-- The guard of the automatic step-down (lines 277–282): `maxPixels` is
supplied (and nonzero, since `0` is falsy in JavaScript), no user override
has been set, the projected buffer pixel count exceeds the budget, and the
multiplier is above `0.15`. -/
def needsStep (g : Geom) (hasSet : Bool) (resolution : ℚ) : Bool :=
  let dims := canvasDims g resolution
  match g.maxPixels with
  | none => false
  | some m =>
      decide (m ≠ 0) && !hasSet &&
      decide (m < ((dims.1 * dims.2 : ℤ) : ℚ)) && decide (3/20 < resolution)

/-- The recursion of `updateDeviceSize` restricted to the resolution
multiplier (lines 277–286): while the guard holds, subtract `0.1` from the
multiplier and recurse; otherwise leave it unchanged. -/
def stepDownLoop (g : Geom) (hasSet : Bool) (resolution : ℚ) : ℚ :=
  if h : needsStep g hasSet resolution = true then
    stepDownLoop g hasSet (resolution - 1/10)
  else resolution
termination_by Nat.ceil ((resolution - 3/20) * 10)
decreasing_by
  have h20 : 3/20 < resolution := by
    unfold needsStep at h
    rcases hm : g.maxPixels with _ | m <;> rw [hm] at h
    · simp at h
    · simp only [Bool.and_eq_true, decide_eq_true_eq] at h
      exact h.2
  rw [Nat.lt_ceil]
  rcases le_or_lt 0 ((resolution - 1/10 - 3/20) * 10) with hc | hc
  · have hlt := Nat.ceil_lt_add_one hc
    calc (Nat.ceil ((resolution - 1/10 - 3/20) * 10) : ℚ)
        < (resolution - 1/10 - 3/20) * 10 + 1 := hlt
      _ = (resolution - 3/20) * 10 := by ring
  · have hz : Nat.ceil ((resolution - 1/10 - 3/20) * 10) = 0 :=
      Nat.ceil_eq_zero.2 (le_of_lt hc)
    rw [hz]
    push_cast
    linarith

/-- The state of `mutResolution` (lines 505–517). -/
structure ResState where
  resolution : ℚ
  hasSet : Bool
  deriving Repr, DecidableEq

/-- Initial `mutResolution` (lines 505–507): multiplier `1`, no override. -/
def initResState : ResState := { resolution := 1, hasSet := false }

/-- One invocation of `updateDeviceSize`, restricted to its effect on the
resolution multiplier (the recursion of lines 277–286). -/
def resUpdate (g : Geom) (st : ResState) : ResState :=
  { st with resolution := stepDownLoop g st.hasSet st.resolution }

/-- `mutResolution.set` (lines 511–516): store the value, mark the override,
invoke `updateDeviceSize`, and write the value through to the persistent
store.  Returns the new state and the values written to storage. -/
def resolutionSet (g : Geom) (value : ℚ) : ResState × List ℚ :=
  let st : ResState := { resolution := value, hasSet := true }
  (resUpdate g st, [value])

/-- Externally triggered operations on `mutResolution`: an explicit
`resolution.set` call, or an `updateDeviceSize` run (resize, scroll, …). -/
inductive ResOp where
  | set (value : ℚ)
  | update
  deriving Repr, DecidableEq

/-- Run a sequence of resolution operations. -/
def runResOps (g : Geom) : ResState → List ResOp → ResState
  | st, [] => st
  | _, ResOp.set v :: ops => runResOps g (resolutionSet g v).1 ops
  | st, ResOp.update :: ops => runResOps g (resUpdate g st) ops

/-- The value carried by the last `set` operation, or `default` if none. -/
def lastSetValue (default : ℚ) : List ResOp → ℚ
  | [] => default
  | ResOp.set v :: ops => lastSetValue v ops
  | ResOp.update :: ops => lastSetValue default ops

/-- The startup read of the persisted resolution (lines 532–539).  `stored`
is `none` when the store has no value under the key, `some none` when the
stored string parses to `NaN`, and `some (some q)` when it parses to the
number `q`.  Returns the resulting `mutResolution` state, whether
`updateDeviceSize` was invoked, and the values written back to the store. -/
def applyStoredResolution (g : Geom) (stored : Option (Option ℚ)) :
    ResState × Bool × List ℚ :=
  match stored with
  | some (some q) => ((resolutionSet g q).1, true, (resolutionSet g q).2)
  | some none => (initResState, false, [])
  | none => (initResState, false, [])

/-- A concrete geometry: 1000×1000 CSS viewport, `devicePixelRatio` 1,
image resolution 3, pixel budget 1. -/
def tinyBudgetGeom : Geom :=
  { deviceWidth := 1000, deviceHeight := 1000, fullWidth := 1000,
    fullHeight := 1000, devicePixelRatio := 1, imageResolution := 3,
    maxPixels := some 1 }

/-! ## Pointer-up dispatch (`index.ts` lines 344–363, 410–432) -/

/-- The data closed over by the pointer handlers: the client-to-game
conversions `getX`/`getY` (built by `clientXToGameX`/`clientYToGameY` of the
input module, abstract here) and the bounds data of `mutDevice.size` used by
`isPointerOutsideGame`. -/
structure PointerCtx where
  getX : ℚ → ℚ
  getY : ℚ → ℚ
  width : ℚ
  height : ℚ
  widthMargin : ℚ
  heightMargin : ℚ

/-- `isPointerOutsideGame` (lines 359–363). -/
def isPointerOutsideGame (ctx : PointerCtx) (x y : ℚ) : Bool :=
  decide (ctx.width / 2 + ctx.widthMargin < x) ||
  decide (x < -(ctx.width / 2) - ctx.widthMargin) ||
  decide (ctx.height / 2 + ctx.heightMargin < y) ||
  decide (y < -(ctx.height / 2) - ctx.heightMargin)

/-- One changed touch of a touch event. -/
structure TouchPt where
  screenX : ℚ
  screenY : ℚ
  identifier : ℤ
  deriving Repr, DecidableEq

/-- A pointer-up / touch-end browser event: a single-pointer event with
client coordinates and a pointer id, or a multi-touch event with its list of
changed touches. -/
inductive UpEvent where
  | pointer (clientX clientY : ℚ) (pointerId : ℤ)
  | touch (changedTouches : List TouchPt)

/-- The calls `pointerUp` makes into the input module. -/
inductive UpCall where
  | up (x y : ℚ) (id : ℤ)
  | cancel (id : ℤ)
  deriving Repr, DecidableEq

/-- The `for` loop over `e.changedTouches` in `pointerUp` (lines 411–422),
one input-module call per touch. -/
def pointerUpTouches (ctx : PointerCtx) : List TouchPt → List UpCall
  | [] => []
  | touch :: rest =>
      let x := ctx.getX touch.screenX
      let y := ctx.getY touch.screenY
      (if isPointerOutsideGame ctx x y then UpCall.cancel touch.identifier
       else UpCall.up x y touch.identifier) :: pointerUpTouches ctx rest

/-- `pointerUp` (lines 410–432): the sequence of input-module calls made for
one browser event. -/
def pointerUp (ctx : PointerCtx) : UpEvent → List UpCall
  | UpEvent.touch ts => pointerUpTouches ctx ts
  | UpEvent.pointer cx cy pid =>
      let x := ctx.getX cx
      let y := ctx.getY cy
      if isPointerOutsideGame ctx x y then [UpCall.cancel pid]
      else [UpCall.up x y pid]

/-! ## Listener registration, cleanup and startup
(`index.ts` lines 124–155, 208–245, 442–445, 578–579, 591, 642–658) -/

/-- The event names used by `renderCanvas` (with `window.PointerEvent`
present, the pointer names are chosen on lines 134–137). -/
inductive EvName where
  | keydown | keyup | visibilitychange | resize | scroll | contextmenu
  | pointerdown | pointermove | pointerup | pointercancel
  deriving Repr, DecidableEq

/-- The distinct handler functions passed to `addEventListener` and
`removeEventListener`.  `keyDownWrapper`/`keyUpWrapper` are the local
closures of lines 177–184; `inputKeyDown`/`inputKeyUp` are the imported
input-module handlers, which are what `cleanup` passes to
`removeEventListener` (lines 652–653); `contextMenu` is the anonymous arrow
function of lines 219–221. -/
inductive Handler where
  | keyDownWrapper | keyUpWrapper | inputKeyDown | inputKeyUp
  | pageVisible | deviceSize | scrollHandler | contextMenu | firstInteraction
  | pDown | pMove | pUp | pCancel
  deriving Repr, DecidableEq

/-- `addEventListener`: a (name, handler) pair already registered is not
added again. -/
def addListener (l : EvName × Handler) (ls : List (EvName × Handler)) :
    List (EvName × Handler) :=
  if l ∈ ls then ls else ls ++ [l]

/-- `removeEventListener`: removes the registration matching both the event
name and the handler identity; no-op when there is no match. -/
def removeListener (l : EvName × Handler) (ls : List (EvName × Handler)) :
    List (EvName × Handler) :=
  ls.erase l

/-- Register a sequence of listeners in order. -/
def registerAll (evs : List (EvName × Handler))
    (ls : List (EvName × Handler)) : List (EvName × Handler) :=
  evs.foldl (fun acc l => addListener l acc) ls

/-- Remove a sequence of listeners in order. -/
def removeAll (evs : List (EvName × Handler))
    (ls : List (EvName × Handler)) : List (EvName × Handler) :=
  evs.foldl (fun acc l => removeListener l acc) ls

/-- The `addEventListener` calls of the `renderCanvas` success path, in
source order: lines 208–221 (keyboard, visibility, resize, scroll,
contextmenu), lines 578–579 (first-interaction hooks), then the first
`updateDeviceSize` run from `launch` (line 591) attaching the four pointer
listeners (lines 442–445). -/
def setupEvents : List (EvName × Handler) :=
  [(EvName.keydown, Handler.keyDownWrapper),
   (EvName.keyup, Handler.keyUpWrapper),
   (EvName.visibilitychange, Handler.pageVisible),
   (EvName.resize, Handler.deviceSize),
   (EvName.scroll, Handler.scrollHandler),
   (EvName.contextmenu, Handler.contextMenu),
   (EvName.keydown, Handler.firstInteraction),
   (EvName.pointerdown, Handler.firstInteraction),
   (EvName.pointerdown, Handler.pDown),
   (EvName.pointermove, Handler.pMove),
   (EvName.pointerup, Handler.pUp),
   (EvName.pointercancel, Handler.pCancel)]

/-- The listeners registered after `renderCanvas` has launched. -/
def listenersAfterSetup : List (EvName × Handler) :=
  registerAll setupEvents []

/-- The `removeEventListener` calls of `cleanup` (lines 651–657), in source
order: the keyboard removals pass the *imported* input-module handlers
(lines 652–653), then visibilitychange/resize/scroll, then
`updateDeviceSize({cleanup: true})` removes the four pointer listeners
(lines 236–242, `prevDeviceSize` exists after launch). -/
def cleanupRemovals : List (EvName × Handler) :=
  [(EvName.keydown, Handler.inputKeyDown),
   (EvName.keyup, Handler.inputKeyUp),
   (EvName.visibilitychange, Handler.pageVisible),
   (EvName.resize, Handler.deviceSize),
   (EvName.scroll, Handler.scrollHandler),
   (EvName.pointerdown, Handler.pDown),
   (EvName.pointermove, Handler.pMove),
   (EvName.pointerup, Handler.pUp),
   (EvName.pointercancel, Handler.pCancel)]

/-- The listeners still registered after `cleanup()` has run. -/
def listenersAfterCleanup : List (EvName × Handler) :=
  removeAll cleanupRemovals listenersAfterSetup

/-- Browser graphics capabilities probed at startup (lines 139–155):
whether `canvas.getContext("webgl", { stencil: true })` returns a context,
and whether the two required extensions are available. -/
structure GLEnv where
  webgl : Bool
  instancedArrays : Bool
  vertexArrayObject : Bool
  deriving Repr, DecidableEq

/-- Result of the startup sequence of `renderCanvas`: either an immediately
returned `Error` value, or the registered listeners with the frame loop
started. -/
structure StartupState where
  listeners : List (EvName × Handler)
  loopStarted : Bool
  error : Option String
  deriving Repr, DecidableEq

/-- The startup sequence of `renderCanvas` (lines 139–155 before any
listener registration, then lines 208–221, 578–579 and `launch`, line 637).
The three capability checks return an `Error` value before any
`addEventListener` call and before `launch` starts the frame loop. -/
def renderCanvasStartup (env : GLEnv) : StartupState :=
  let s : StartupState :=
    { listeners := [], loopStarted := false, error := none }
  if !env.webgl then { s with error := some "WebGL not supported" } else
  if !env.instancedArrays then
    { s with error := some "WebGL instancing not supported" } else
  if !env.vertexArrayObject then
    { s with error := some "WebGL VAO not supported" } else
  { s with listeners := listenersAfterSetup, loopStarted := true }

/-! ## Device size retention on scroll (`index.ts` lines 215, 229–253) -/

/-- The `DeviceSize` record of `@replay/core` (the fields set by
`calculateDeviceSize` and read in `index.ts`). -/
structure DeviceSizeM where
  width : ℚ
  height : ℚ
  widthMargin : ℚ
  heightMargin : ℚ
  deviceWidth : ℚ
  deviceHeight : ℚ
  deriving Repr, DecidableEq

/-- The device-size update of `updateDeviceSize` (lines 245–253):
`calculateDeviceSize` lives in the external module `./size` and is abstract
here (`calcSize`, applied to the raw viewport dimensions); `didScroll` comes
from the options, `prev` is `prevDeviceSize`, `cur` the current
`mutDevice.size`. -/
def updateDeviceSizeSize (calcSize : ℚ → ℚ → DeviceSizeM) (rawW rawH : ℚ)
    (didScroll : Bool) (prev : Option DeviceSizeM) (cur : DeviceSizeM) :
    DeviceSizeM :=
  if !(didScroll && prev.isSome) then calcSize rawW rawH else cur

/-- `updateScroll` (line 215): a scroll event invokes `updateDeviceSize`
with `didScroll := true`. -/
def updateScroll (calcSize : ℚ → ℚ → DeviceSizeM) (rawW rawH : ℚ)
    (prev : Option DeviceSizeM) (cur : DeviceSizeM) : DeviceSizeM :=
  updateDeviceSizeSize calcSize rawW rawH true prev cur

/-! ## Theorems about the frame clock -/

theorem handlePageVisible_lastTimeValue (hidden : Bool) (s : ClockState) :
    (handlePageVisible hidden s).lastTimeValue = s.lastTimeValue := by
  cases hidden <;> cases hv : s.isPageVisible <;>
    simp [handlePageVisible, hv]

theorem handlePageVisible_initTime (hidden : Bool) (s : ClockState) :
    (handlePageVisible hidden s).initTime = s.initTime := by
  cases hidden <;> cases hv : s.isPageVisible <;>
    simp [handlePageVisible, hv]

theorem handlePageVisible_total (hidden : Bool) (s : ClockState) :
    (handlePageVisible hidden s).totalPageNotVisibleTime =
      s.totalPageNotVisibleTime := by
  cases hidden <;> cases hv : s.isPageVisible <;>
    simp [handlePageVisible, hv]

theorem handlePageVisible_isCleanedUp (hidden : Bool) (s : ClockState) :
    (handlePageVisible hidden s).isCleanedUp = s.isCleanedUp := by
  cases hidden <;> cases hv : s.isPageVisible <;>
    simp [handlePageVisible, hv]

theorem handlePageVisible_outVal (hidden : Bool) (s : ClockState) :
    outVal (handlePageVisible hidden s) = outVal s := by
  simp [outVal, handlePageVisible_lastTimeValue, handlePageVisible_initTime,
    handlePageVisible_total]

theorem handlePageVisible_inv (hidden : Bool) (s : ClockState)
    (h : ClockInv s) : ClockInv (handlePageVisible hidden s) := by
  rcases s with ⟨vis, ltv, needs, lpnv, total, it, cl⟩
  cases hidden <;> cases vis <;> cases needs <;>
    simp [handlePageVisible, ClockInv] at h ⊢ <;> simp [h]

/-- Behaviour of a single animation frame: preservation of the invariant,
characterisation of the output and of the updated `lastTimeValue`. -/
theorem newWebFrame_spec (t : ℚ) (s : ClockState) (hInv : ClockInv s)
    (hcl : s.isCleanedUp = false) (hle : s.lastTimeValue ≤ t) :
    ClockInv (newWebFrame t s).1 ∧
    (newWebFrame t s).1.isCleanedUp = false ∧
    (∀ w, (newWebFrame t s).2 = some w →
      (newWebFrame t s).1.lastTimeValue = t ∧
      w = outVal (newWebFrame t s).1 ∧
      (newWebFrame t s).1.initTime.isSome = true ∧
      (s.initTime.isSome = true → outVal s ≤ w)) ∧
    ((newWebFrame t s).2 = none →
      (newWebFrame t s).1.lastTimeValue = s.lastTimeValue ∧
      (s.initTime.isSome = true → (newWebFrame t s).1 = s)) := by
  rcases s with ⟨vis, ltv, needs, lpnv, total, it, cl⟩
  simp only at hcl
  subst hcl
  cases it <;> cases vis <;> cases needs <;>
    simp [newWebFrame, ClockInv, outVal] at hInv ⊢ <;>
    simp at hle <;> linarith

theorem chain_le_drop {a b : ℚ} {l : List ℚ} (hab : a ≤ b)
    (h : List.Chain' (· ≤ ·) (b :: l)) : List.Chain' (· ≤ ·) (a :: l) := by
  rcases l with _ | ⟨c, l⟩
  · simp
  · rw [List.chain'_cons] at h ⊢
    exact ⟨le_trans hab h.1, h.2⟩

theorem runClock_chain_aux (es : List ClockEvent) :
    ∀ (s : ClockState) (lb : Option ℚ), ClockInv s → s.isCleanedUp = false →
    List.Chain' (· ≤ ·) (s.lastTimeValue :: frameTimes es) →
    (∀ v, lb = some v → s.initTime.isSome = true ∧ v ≤ outVal s) →
    List.Chain' (· ≤ ·) (withLast lb (runClock s es).2) := by
  induction es with
  | nil =>
      intro s lb _ _ _ _
      cases lb <;> simp [runClock, withLast]
  | cons e es ih =>
      intro s lb hInv hcl hchain hb
      cases e with
      | visibility hidden =>
          have hfr : frameTimes (ClockEvent.visibility hidden :: es) =
              frameTimes es := by simp [frameTimes]
          rw [hfr] at hchain
          have hrec := ih (handlePageVisible hidden s) lb
            (handlePageVisible_inv _ _ hInv)
            (by rw [handlePageVisible_isCleanedUp]; exact hcl)
            (by rw [handlePageVisible_lastTimeValue]; exact hchain)
            (fun v hv => by
              obtain ⟨h1, h2⟩ := hb v hv
              exact ⟨by rw [handlePageVisible_initTime]; exact h1,
                     by rw [handlePageVisible_outVal]; exact h2⟩)
          simpa [runClock] using hrec
      | frame t =>
          have hfr : frameTimes (ClockEvent.frame t :: es) =
              t :: frameTimes es := by simp [frameTimes]
          rw [hfr, List.chain'_cons] at hchain
          obtain ⟨hle, hchain⟩ := hchain
          obtain ⟨hInv', hcl', hsome, hnone⟩ := newWebFrame_spec t s hInv hcl hle
          cases ho : (newWebFrame t s).2 with
          | none =>
              obtain ⟨hltv, hstate⟩ := hnone ho
              have hrec := ih (newWebFrame t s).1 lb hInv' hcl'
                (by rw [hltv]; exact chain_le_drop hle hchain)
                (fun v hv => by
                  obtain ⟨h1, h2⟩ := hb v hv
                  rw [hstate h1]
                  exact ⟨h1, h2⟩)
              simpa [runClock, ho] using hrec
          | some w =>
              obtain ⟨hltv, hw, hsome', hmono⟩ := hsome w ho
              have hrec := ih (newWebFrame t s).1 (some w) hInv' hcl'
                (by rw [hltv]; exact hchain)
                (fun v hv => by
                  cases hv
                  exact ⟨hsome', le_of_eq hw⟩)
              cases lb with
              | none => simpa [runClock, ho, withLast] using hrec
              | some v =>
                  obtain ⟨hvs, hvle⟩ := hb v rfl
                  have hvw : v ≤ w := le_trans hvle (hmono hvs)
                  simp only [withLast] at hrec ⊢
                  simp only [runClock, ho, Option.toList, List.singleton_append]
                  rw [List.chain'_cons]
                  exact ⟨hvw, hrec⟩

theorem newWebFrame_hidden_none (s : ClockState) (t : ℚ)
    (h : s.isPageVisible = false) : (newWebFrame t s).2 = none := by
  rcases s with ⟨vis, ltv, needs, lpnv, total, it, cl⟩
  simp only at h
  subst h
  cases cl <;> cases it <;> simp [newWebFrame]

end ReplayWeb

open ReplayWeb

/-- **C1**: for every sequence of animation-frame timestamps (non-decreasing,
starting from the initial `lastTimeValue = 0`) interleaved with visibility
transitions, the elapsed-time values `newWebFrame` passes to `runNextFrame`
form a non-decreasing sequence; and a frame arriving while the page is not
visible passes no elapsed time to the engine. -/
theorem clock_elapsed_nondecreasing (es : List ClockEvent)
    (h : List.Chain' (· ≤ ·) (0 :: frameTimes es)) :
    List.Chain' (· ≤ ·) (runClock initClockState es).2 ∧
    ∀ (s : ClockState) (t : ℚ),
      (newWebFrame t { s with isPageVisible := false }).2 = none := by
  constructor
  · have haux := runClock_chain_aux es initClockState none
      (fun _ => rfl) rfl h (fun v hv => by cases hv)
    simpa [withLast] using haux
  · exact fun s t => newWebFrame_hidden_none { s with isPageVisible := false } t rfl

/-- Witness for `clock_elapsed_nondecreasing` at a concrete trace containing
frames, a hide and a show. -/
theorem clock_elapsed_nondecreasing_witness :
    List.Chain' (· ≤ ·) (0 :: frameTimes gapTrace) ∧
    (List.Chain' (· ≤ ·) (runClock initClockState gapTrace).2 ∧
    ∀ (s : ClockState) (t : ℚ),
      (newWebFrame t { s with isPageVisible := false }).2 = none) :=
  ⟨by norm_num [gapTrace, frameTimes, List.filterMap_cons, List.chain'_cons],
   clock_elapsed_nondecreasing gapTrace
     (by norm_num [gapTrace, frameTimes, List.filterMap_cons, List.chain'_cons])⟩

/-- **C4** (counterexample): in the spec's scenario (visible frames up to raw
time 1000 ms, hidden 1000–5000 ms, visible again at 5000 ms, next frame at
5016 ms) the corrected elapsed time of the 5016 ms frame is *not*
elapsed-at-1000 plus 16 ms: the code accumulates the gap from the last
visible frame (1000 ms) to the first frame after regaining visibility
(5016 ms), so the 16 ms is absorbed into the gap. -/
theorem gap_scenario_not_plus16 :
    (runClock initClockState gapTrace).2.getLast? = some (1000 + 1/60) ∧
    (runClock initClockState gapTrace).2.getLast? ≠
      some ((1000 + 1/60) + 16) := by
  constructor <;>
    norm_num [runClock, newWebFrame, handlePageVisible, initClockState,
      frameInterval, gapTrace]

/-- **C4** (amended): in the scenario the corrected elapsed time reported for
the 5016 ms frame equals exactly the corrected elapsed time that was reported
for the 1000 ms frame (`1000 + 1/60`): the accumulated not-visible duration
(4016 ms, from the last visible frame to the first frame after return) is
added once to the running total subtracted from all future computations. -/
theorem gap_scenario_amended :
    (runClock initClockState gapTrace).2 =
      [1/60, 500 + 1/60, 1000 + 1/60, 1000 + 1/60] := by
  norm_num [runClock, newWebFrame, handlePageVisible, initClockState,
    frameInterval, gapTrace]

/-- **C5**: on the very first animation-frame callback with raw timestamp
`t`, the clock captures `initTime = t - 1/60` (one target frame interval
before `t`), so the first corrected elapsed time passed to `runNextFrame`
equals exactly one frame interval rather than zero. -/
theorem first_frame_elapsed_is_one_interval (t : ℚ) :
    (newWebFrame t initClockState).1.initTime = some (t - frameInterval) ∧
    (newWebFrame t initClockState).2 = some frameInterval := by
  constructor <;>
    simp [newWebFrame, initClockState, frameInterval]

/-! ## Theorems about the adaptive resolution controller -/

theorem needsStep_lt {g : Geom} {hs : Bool} {r : ℚ}
    (h : needsStep g hs r = true) : 3/20 < r := by
  unfold needsStep at h
  rcases hm : g.maxPixels with _ | m <;> rw [hm] at h
  · simp at h
  · simp only [Bool.and_eq_true, decide_eq_true_eq] at h
    exact h.2

theorem stepDownLoop_step {g : Geom} {hs : Bool} {r : ℚ}
    (h : needsStep g hs r = true) :
    stepDownLoop g hs r = stepDownLoop g hs (r - 1/10) := by
  rw [stepDownLoop, dif_pos h]

theorem stepDownLoop_stop {g : Geom} {hs : Bool} {r : ℚ}
    (h : needsStep g hs r = false) : stepDownLoop g hs r = r := by
  rw [stepDownLoop, dif_neg]
  simp [h]

theorem needsStep_hasSet (g : Geom) (r : ℚ) : needsStep g true r = false := by
  unfold needsStep
  rcases g.maxPixels with _ | m <;> simp

theorem stepDownLoop_hasSet (g : Geom) (r : ℚ) : stepDownLoop g true r = r :=
  stepDownLoop_stop (needsStep_hasSet g r)

/-- Full characterisation of the step-down loop: it stops exactly when the
guard fails, every iteration subtracts exactly `0.1` from a value on which
the guard held, and the result stays above `0.05`. -/
theorem stepDownLoop_spec (g : Geom) (hs : Bool) : ∀ r : ℚ,
    1/20 < r →
    needsStep g hs (stepDownLoop g hs r) = false ∧
    1/20 < stepDownLoop g hs r ∧
    ∃ k : ℕ, stepDownLoop g hs r = r - (k : ℚ) * (1/10) ∧
      ∀ j : ℕ, j < k → needsStep g hs (r - (j : ℚ) * (1/10)) = true := by
  refine stepDownLoop.induct g hs
    (fun r => 1/20 < r →
      needsStep g hs (stepDownLoop g hs r) = false ∧
      1/20 < stepDownLoop g hs r ∧
      ∃ k : ℕ, stepDownLoop g hs r = r - (k : ℚ) * (1/10) ∧
        ∀ j : ℕ, j < k → needsStep g hs (r - (j : ℚ) * (1/10)) = true)
    ?_ ?_
  · intro r h ih _
    have h20 : 3/20 < r := needsStep_lt h
    obtain ⟨h1, h2, k, hk, hj⟩ := ih (by linarith)
    rw [stepDownLoop_step h]
    refine ⟨h1, h2, k + 1, ?_, ?_⟩
    · rw [hk]; push_cast; ring
    · intro j hjk
      cases j with
      | zero => simpa using h
      | succ j =>
          have hrw : r - ((j + 1 : ℕ) : ℚ) * (1/10) =
              (r - 1/10) - (j : ℚ) * (1/10) := by push_cast; ring
          rw [hrw]
          exact hj j (by omega)
  · intro r h hr
    have hfalse : needsStep g hs r = false := by
      cases hb : needsStep g hs r
      · rfl
      · exact absurd hb h
    rw [stepDownLoop_stop hfalse]
    refine ⟨hfalse, hr, 0, by push_cast; ring, by omega⟩

theorem jsRound_eq_of (x : ℚ) (n : ℤ) (h1 : (n : ℚ) ≤ x + 1/2)
    (h2 : x + 1/2 < n + 1) : jsRound x = n := by
  rw [jsRound]
  exact Int.floor_eq_iff.2 ⟨h1, h2⟩

theorem canvasDims_tinyBudget (r : ℚ) (hr : r ≤ 3) :
    canvasDims tinyBudgetGeom r =
      (jsRound (1000 * 1 * r), jsRound (1000 * 1 * r)) := by
  have hlt : ¬((1000 : ℚ) * 3 < 1000 * 1 * r) := by push_neg; nlinarith
  simp [canvasDims, tinyBudgetGeom, hlt]
  intro h'
  linarith

theorem needsStep_tinyBudget_true (r : ℚ) (n : ℤ) (hr3 : r ≤ 3)
    (hn : jsRound (1000 * 1 * r) = n) (hbig : (1 : ℚ) < ((n * n : ℤ) : ℚ))
    (h20 : 3/20 < r) : needsStep tinyBudgetGeom false r = true := by
  have hd := canvasDims_tinyBudget r hr3
  rw [hn] at hd
  simp only [tinyBudgetGeom] at hd
  simp only [needsStep, tinyBudgetGeom, hd, Bool.and_eq_true,
    Bool.not_false, decide_eq_true_eq]
  exact ⟨⟨⟨one_ne_zero, trivial⟩, hbig⟩, h20⟩

theorem needsStep_tinyBudget_low :
    needsStep tinyBudgetGeom false (1/10) = false := by
  have hlow : ¬((3 : ℚ)/20 < 1/10) := by norm_num
  unfold needsStep
  simp [tinyBudgetGeom, hlow]
  intro _
  norm_num

theorem tinyStep (r : ℚ) (n : ℤ) (hr3 : r ≤ 3)
    (h1 : (n : ℚ) ≤ 1000 * 1 * r + 1/2) (h2 : 1000 * 1 * r + 1/2 < n + 1)
    (hbig : (1 : ℚ) < ((n * n : ℤ) : ℚ)) (h20 : 3/20 < r) :
    stepDownLoop tinyBudgetGeom false r =
      stepDownLoop tinyBudgetGeom false (r - 1/10) :=
  stepDownLoop_step
    (needsStep_tinyBudget_true r n hr3 (jsRound_eq_of _ _ h1 h2) hbig h20)

/-- **C2** (counterexample): with a 1000×1000 viewport, `devicePixelRatio` 1
and `maxPixels = 1`, starting from multiplier `1` with no user override, the
step-down recursion of `updateDeviceSize` ends at multiplier `0.1`, strictly
below the claimed floor of `0.15` (the guard only requires the multiplier to
be *above* 0.15 before stepping, so the last step lands one step below it). -/
theorem resolution_floor_counterexample :
    stepDownLoop tinyBudgetGeom false 1 = 1/10 ∧ (1/10 : ℚ) < 3/20 := by
  constructor
  · rw [tinyStep 1 1000 (by norm_num) (by norm_num) (by norm_num)
      (by norm_num) (by norm_num)]
    rw [show (1 : ℚ) - 1/10 = 9/10 from by norm_num]
    rw [tinyStep (9/10) 900 (by norm_num) (by norm_num) (by norm_num)
      (by norm_num) (by norm_num)]
    rw [show (9 : ℚ)/10 - 1/10 = 8/10 from by norm_num]
    rw [tinyStep (8/10) 800 (by norm_num) (by norm_num) (by norm_num)
      (by norm_num) (by norm_num)]
    rw [show (8 : ℚ)/10 - 1/10 = 7/10 from by norm_num]
    rw [tinyStep (7/10) 700 (by norm_num) (by norm_num) (by norm_num)
      (by norm_num) (by norm_num)]
    rw [show (7 : ℚ)/10 - 1/10 = 6/10 from by norm_num]
    rw [tinyStep (6/10) 600 (by norm_num) (by norm_num) (by norm_num)
      (by norm_num) (by norm_num)]
    rw [show (6 : ℚ)/10 - 1/10 = 5/10 from by norm_num]
    rw [tinyStep (5/10) 500 (by norm_num) (by norm_num) (by norm_num)
      (by norm_num) (by norm_num)]
    rw [show (5 : ℚ)/10 - 1/10 = 4/10 from by norm_num]
    rw [tinyStep (4/10) 400 (by norm_num) (by norm_num) (by norm_num)
      (by norm_num) (by norm_num)]
    rw [show (4 : ℚ)/10 - 1/10 = 3/10 from by norm_num]
    rw [tinyStep (3/10) 300 (by norm_num) (by norm_num) (by norm_num)
      (by norm_num) (by norm_num)]
    rw [show (3 : ℚ)/10 - 1/10 = 2/10 from by norm_num]
    rw [tinyStep (2/10) 200 (by norm_num) (by norm_num) (by norm_num)
      (by norm_num) (by norm_num)]
    rw [show (2 : ℚ)/10 - 1/10 = 1/10 from by norm_num]
    exact stepDownLoop_stop needsStep_tinyBudget_low
  · norm_num

/-- **C2** (amended): when `maxPixels` is set and no user override exists,
each automatic step-down of `updateDeviceSize` decreases the multiplier by
exactly `0.1`; a step-down is taken exactly when the projected buffer pixel
count exceeds the budget *and* the multiplier is above `0.15`; the recursion
stops as soon as the guard fails; consequently the final multiplier stays
above `0.05` (one step below the `0.15` threshold) but may end below `0.15`. -/
theorem resolution_stepdown_spec (g : Geom) (r : ℚ) (h : 1/20 < r) :
    needsStep g false (stepDownLoop g false r) = false ∧
    1/20 < stepDownLoop g false r ∧
    ∃ k : ℕ, stepDownLoop g false r = r - (k : ℚ) * (1/10) ∧
      ∀ j : ℕ, j < k → needsStep g false (r - (j : ℚ) * (1/10)) = true :=
  stepDownLoop_spec g false r h

/-- Witness for `resolution_stepdown_spec` at the concrete tiny-budget
geometry with starting multiplier `1`. -/
theorem resolution_stepdown_spec_witness :
    (1 : ℚ)/20 < 1 ∧
    (needsStep tinyBudgetGeom false (stepDownLoop tinyBudgetGeom false 1) = false ∧
     1/20 < stepDownLoop tinyBudgetGeom false 1 ∧
     ∃ k : ℕ, stepDownLoop tinyBudgetGeom false 1 = 1 - (k : ℚ) * (1/10) ∧
       ∀ j : ℕ, j < k →
         needsStep tinyBudgetGeom false (1 - (j : ℚ) * (1/10)) = true) :=
  ⟨by norm_num, resolution_stepdown_spec tinyBudgetGeom 1 (by norm_num)⟩

theorem resolutionSet_fst (g : Geom) (v : ℚ) :
    (resolutionSet g v).1 = { resolution := v, hasSet := true } := by
  simp [resolutionSet, resUpdate, stepDownLoop_hasSet]

theorem runResOps_hasSet (g : Geom) : ∀ (ops : List ResOp) (st : ResState),
    st.hasSet = true →
    runResOps g st ops =
      { resolution := lastSetValue st.resolution ops, hasSet := true } := by
  intro ops
  induction ops with
  | nil =>
      intro st h
      rcases st with ⟨r, hs⟩
      simp only at h
      subst h
      simp [runResOps, lastSetValue]
  | cons op ops ih =>
      intro st h
      cases op with
      | set v =>
          have := ih { resolution := v, hasSet := true } rfl
          simp [runResOps, lastSetValue, resolutionSet_fst, this]
      | update =>
          have hres : resUpdate g st = st := by
            rcases st with ⟨r, hs⟩
            simp only at h
            subst h
            simp [resUpdate, stepDownLoop_hasSet]
          simp [runResOps, lastSetValue, hres, ih st h]

/-- **C3**: once `resolution.set(v)` has been called, every later
`updateDeviceSize` leaves the multiplier untouched (no automatic step-down,
whatever the budget): the final multiplier is exactly the value of the last
`set` in the remaining operations, and the override flag stays on. -/
theorem set_disables_auto_stepdown (g : Geom) (st : ResState) (v : ℚ)
    (ops : List ResOp) :
    (runResOps g st (ResOp.set v :: ops)).resolution = lastSetValue v ops ∧
    (runResOps g st (ResOp.set v :: ops)).hasSet = true := by
  have h1 : runResOps g st (ResOp.set v :: ops) =
      runResOps g (resolutionSet g v).1 ops := rfl
  rw [h1, resolutionSet_fst, runResOps_hasSet g ops _ rfl]
  exact ⟨rfl, rfl⟩

/-- **C10**: at startup, a stored value parsing to a number `q` is applied
through `resolution.set`: the multiplier becomes exactly `q` (no range check,
since the override flag is set before `updateDeviceSize` runs, disabling the
automatic step-down), `updateDeviceSize` is invoked, and `q` is written back
to the store; a stored value parsing to `NaN` (or no stored value) is
ignored, leaving multiplier `1` and no override.  A later `updateDeviceSize`
leaves the applied state unchanged. -/
theorem stored_resolution_applied (g : Geom) (q : ℚ) :
    applyStoredResolution g (some (some q)) =
      ({ resolution := q, hasSet := true }, true, [q]) ∧
    applyStoredResolution g (some none) = (initResState, false, []) ∧
    applyStoredResolution g none = (initResState, false, []) ∧
    initResState.resolution = 1 ∧ initResState.hasSet = false ∧
    resUpdate g (applyStoredResolution g (some (some q))).1 =
      (applyStoredResolution g (some (some q))).1 := by
  refine ⟨?_, rfl, rfl, rfl, rfl, ?_⟩ <;>
    simp [applyStoredResolution, resolutionSet, resUpdate, stepDownLoop_hasSet]

/-! ## Theorems about pointer dispatch, cleanup, startup and device size -/

/-- **C6**: for every pointer-up / touch-end event, single-pointer and
multi-touch paths alike, a release point converting to a game-space point
outside the bounded play region produces a cancel call for that pointer
identifier instead of a normal up; an in-bounds release produces a normal up
with the converted coordinates and that identifier. -/
theorem pointerUp_cancel_or_up (ctx : PointerCtx) (e : UpEvent) :
    pointerUp ctx e =
      match e with
      | UpEvent.pointer cx cy pid =>
          if isPointerOutsideGame ctx (ctx.getX cx) (ctx.getY cy) then
            [UpCall.cancel pid]
          else [UpCall.up (ctx.getX cx) (ctx.getY cy) pid]
      | UpEvent.touch ts =>
          ts.map fun touch =>
            if isPointerOutsideGame ctx (ctx.getX touch.screenX)
                (ctx.getY touch.screenY) then
              UpCall.cancel touch.identifier
            else
              UpCall.up (ctx.getX touch.screenX) (ctx.getY touch.screenY)
                touch.identifier := by
  cases e with
  | pointer cx cy pid => rfl
  | touch ts =>
      induction ts with
      | nil => rfl
      | cons t ts ih =>
          simp only [pointerUp] at ih
          simp only [pointerUp, pointerUpTouches, List.map_cons, ih]

/-- **C7** (code bug): `cleanup()` does *not* remove every listener that
`renderCanvas` registered, contradicting its own doc comment ("removes all
loops and event listeners"): the keyboard removals pass the imported
input-module handlers instead of the registered local wrappers, and the
`contextmenu` listener is never removed, so all three stay registered; the
visibility/resize/scroll and the four pointer listeners are removed, and the
clock is marked inert (a frame after cleanup leaves the state unchanged and
passes nothing to `runNextFrame`). -/
theorem cleanup_leaves_listeners :
    ((EvName.keydown, Handler.keyDownWrapper) ∈ listenersAfterCleanup ∧
     (EvName.keyup, Handler.keyUpWrapper) ∈ listenersAfterCleanup ∧
     (EvName.contextmenu, Handler.contextMenu) ∈ listenersAfterCleanup) ∧
    ((EvName.visibilitychange, Handler.pageVisible) ∉ listenersAfterCleanup ∧
     (EvName.resize, Handler.deviceSize) ∉ listenersAfterCleanup ∧
     (EvName.scroll, Handler.scrollHandler) ∉ listenersAfterCleanup ∧
     (EvName.pointerdown, Handler.pDown) ∉ listenersAfterCleanup ∧
     (EvName.pointermove, Handler.pMove) ∉ listenersAfterCleanup ∧
     (EvName.pointerup, Handler.pUp) ∉ listenersAfterCleanup ∧
     (EvName.pointercancel, Handler.pCancel) ∉ listenersAfterCleanup) ∧
    (∀ (s : ClockState) (t : ℚ),
      newWebFrame t { s with isCleanedUp := true } =
        ({ s with isCleanedUp := true }, none)) := by
  refine ⟨by decide, by decide, ?_⟩
  intro s t
  simp [newWebFrame]

/-- **C8**: a scroll-only invocation of `updateDeviceSize` with an existing
previous device size leaves the stored device size unchanged; a resize
invocation, or any invocation before a previous size exists, recomputes it
from the current raw viewport dimensions. -/
theorem scroll_keeps_device_size (calcSize : ℚ → ℚ → DeviceSizeM)
    (rawW rawH : ℚ) (prev : Option DeviceSizeM) (cur p : DeviceSizeM) :
    updateScroll calcSize rawW rawH (some p) cur = cur ∧
    updateDeviceSizeSize calcSize rawW rawH false prev cur =
      calcSize rawW rawH ∧
    updateDeviceSizeSize calcSize rawW rawH true none cur =
      calcSize rawW rawH := by
  exact ⟨by simp [updateScroll, updateDeviceSizeSize],
    by simp [updateDeviceSizeSize], by simp [updateDeviceSizeSize]⟩

/-- **C9**: if the webgl context or one of the two required extensions is
missing, `renderCanvas` returns an `Error` value immediately: no event
listener has been attached and the frame loop has not been started. -/
theorem missing_capability_aborts (env : GLEnv)
    (h : env.webgl = false ∨ env.instancedArrays = false ∨
         env.vertexArrayObject = false) :
    (renderCanvasStartup env).error.isSome = true ∧
    (renderCanvasStartup env).listeners = [] ∧
    (renderCanvasStartup env).loopStarted = false := by
  rcases env with ⟨w, i, v⟩
  cases w <;> cases i <;> cases v <;>
    simp [renderCanvasStartup] <;> rcases h with h | h | h <;> simp at h

/-- Witness for `missing_capability_aborts`: a browser without webgl. -/
theorem missing_capability_aborts_witness :
    ((GLEnv.mk false true true).webgl = false ∨
     (GLEnv.mk false true true).instancedArrays = false ∨
     (GLEnv.mk false true true).vertexArrayObject = false) ∧
    ((renderCanvasStartup (GLEnv.mk false true true)).error.isSome = true ∧
     (renderCanvasStartup (GLEnv.mk false true true)).listeners = [] ∧
     (renderCanvasStartup (GLEnv.mk false true true)).loopStarted = false) :=
  ⟨Or.inl rfl, missing_capability_aborts (GLEnv.mk false true true) (Or.inl rfl)⟩
